import Mathlib

/-!
Shallow embedding of the web-scraper crawling service
(src/app/crawler_service.py and src/app/utils.py) and proofs about it.

Python attributes that may be absent are modelled as `Option` fields;
Python string truthiness is modelled by `truthy` (non-empty);
Python exceptions are modelled by `Except String`.
-/

/-- Truthiness of a Python string: non-empty. -/
def truthy (s : String) : Bool := !s.data.isEmpty

/-- Whether `p` is a prefix of `s`, as Python `str.startswith`. -/
def strStartsWith (s p : String) : Bool := p.data.isPrefixOf s.data

/-- Whether `needle` occurs as a contiguous run inside `hay`. -/
def containsSub (hay needle : List Char) : Bool :=
  match hay with
  | [] => needle.isEmpty
  | _ :: t => needle.isPrefixOf hay || containsSub t needle

/-- The characters of a string, lowercased. -/
def lowerChars (s : String) : List Char := s.data.map Char.toLower

/-- The value of a `links` attribute on a crawl result: the source checks
`isinstance(result.links, list)` and `isinstance(result.links, dict)`
(crawler_service.py lines 285-288), so both shapes are modelled. -/
inductive LinksAttr
  | list (ls : List String)
  | dict (pairs : List (String × String))
deriving DecidableEq

/-- The value of a `metadata` attribute: the source checks
`isinstance(result.metadata, dict)` (line 330), so a non-dict value is
possible; for a non-dict value only its Python truthiness is relevant. -/
inductive MetaAttr
  | dict (m : List (String × String))
  | nondict (isTruthy : Bool)
deriving DecidableEq

/-- Python truthiness of a metadata value: a dict is truthy iff non-empty. -/
def metaTruthy : MetaAttr → Bool
  | .dict m => !m.isEmpty
  | .nondict b => b

/-- Whether the metadata attribute is present and a dict (line 330). -/
def metaIsDict : Option MetaAttr → Bool
  | some (.dict _) => true
  | _ => false

/-- The dict value of a metadata attribute (empty list when not a dict). -/
def metaDict : Option MetaAttr → List (String × String)
  | some (.dict m) => m
  | _ => []

/-- A duck-typed result object returned by the external renderer
(`crawl4ai` CrawlResult): every attribute the service probes with
`hasattr`/`getattr` is an `Option` field, `none` meaning absent. -/
structure RenderResult where
  url : Option String := none
  success : Option Bool := none
  links : Option LinksAttr := none
  html : Option String := none
  html_content : Option String := none
  markdown : Option String := none
  markdown_content : Option String := none
  text : Option String := none
  text_content : Option String := none
  metadata : Option MetaAttr := none
  title : Option String := none
deriving DecidableEq

/-! ## Regex scanners used by the extraction pipeline

The source uses `re.findall(r'href=["\']([^"\']+)["\']', ...)` for HTML,
`re.findall(r'\[([^\]]+)\]\(([^)]+)\)', ...)` for markdown links, and
`re.search(r'^#\s+(.+)$', ..., re.MULTILINE)` for a title heading.  These
fixed patterns are embedded as explicit scanners with `re`'s left-to-right,
non-overlapping semantics. -/

/-- Quote characters of the `["\']` character class; 39 is the apostrophe. -/
def isQuote (c : Char) : Bool := c == '"' || c == Char.ofNat 39

/-- Splits a maximal run of characters satisfying `p` off the front. -/
def splitRun (p : Char → Bool) : List Char → List Char × List Char
  | [] => ([], [])
  | c :: cs =>
    if p c then
      let r := splitRun p cs
      (c :: r.1, r.2)
    else ([], c :: cs)

/-- Matches `href=["\']([^"\']+)["\']` at the head of the input, returning
the captured group and the rest of the input after the match. -/
def hrefMatchAt : List Char → Option (String × List Char)
  | 'h' :: 'r' :: 'e' :: 'f' :: '=' :: q :: rest =>
    if isQuote q then
      let r := splitRun (fun c => !isQuote c) rest
      match r.2 with
      | q2 :: rest3 =>
        if isQuote q2 && !r.1.isEmpty then some (String.mk r.1, rest3) else none
      | [] => none
    else none
  | _ => none

/-- Matches `\[([^\]]+)\]\(([^)]+)\)` at the head of the input, returning
the second captured group (the URL, as used at line 310/316) and the rest. -/
def mdMatchAt : List Char → Option (String × List Char)
  | '[' :: rest =>
    let t := splitRun (fun c => !(c == ']')) rest
    if t.1.isEmpty then none
    else
      match t.2 with
      | ']' :: '(' :: rest3 =>
        let u := splitRun (fun c => !(c == ')')) rest3
        if u.1.isEmpty then none
        else
          match u.2 with
          | ')' :: rest5 => some (String.mk u.1, rest5)
          | _ => none
      | _ => none
  | _ => none

/-- Scans left to right as `re.findall` does: try a match at each position,
emit the capture and continue after the match, else advance one character.
Fuel bounds the recursion; every step consumes at least one character, so
fuel equal to the input length is enough. -/
def scanAll (matchAt : List Char → Option (String × List Char)) :
    Nat → List Char → List String
  | 0, _ => []
  | _ + 1, [] => []
  | fuel + 1, c :: cs =>
    match matchAt (c :: cs) with
    | some r => r.1 :: scanAll matchAt fuel r.2
    | none => scanAll matchAt fuel cs

/-- All captures of `href=["\']([^"\']+)["\']` in a string. -/
def hrefFindAll (s : String) : List String := scanAll hrefMatchAt s.length s.data

/-- All URL captures of `\[([^\]]+)\]\(([^)]+)\)` in a string. -/
def mdFindAll (s : String) : List String := scanAll mdMatchAt s.length s.data

/-- Python `\s` character class (space, tab, newline, CR, vertical tab, form feed). -/
def pyWs (c : Char) : Bool :=
  c == ' ' || c == '\t' || c == '\n' || c == '\r' || c == Char.ofNat 11 || c == Char.ofNat 12

/-- Matches `(.+)$` at the head: at least one character, none of them a
newline, ending at a newline or the end of input; returns the capture. -/
def dotPlusLine (cs : List Char) : Option String :=
  match cs with
  | [] => none
  | c :: _ =>
    if c == '\n' then none
    else some (String.mk (cs.takeWhile (fun x => !(x == '\n'))))

/-- Matches `\s+(.+)$` at the head with greedy backtracking: the whitespace
run is extended as far as possible, then shortened until `(.+)$` matches. -/
def wsPlusDot : List Char → Option String
  | [] => none
  | c :: cs =>
    if pyWs c then
      match wsPlusDot cs with
      | some g => some g
      | none => dotPlusLine cs
    else none

/-- Matches `#\s+(.+)$` at the head of the input. -/
def headingAt : List Char → Option String
  | '#' :: rest => wsPlusDot rest
  | _ => none

/-- Scans for the first position at a line start where `#\s+(.+)$` matches,
as `re.search` with `re.MULTILINE` does for `^#\s+(.+)$`. -/
def headingSearchGo : Bool → List Char → Option String
  | _, [] => none
  | atStart, c :: cs =>
    match (if atStart then headingAt (c :: cs) else none) with
    | some g => some g
    | none => headingSearchGo (c == '\n') cs

/-- First capture of `re.search(r'^#\s+(.+)$', s, re.MULTILINE)`. -/
def headingTitle (s : String) : Option String := headingSearchGo true s.data

/-! ## Link extraction (`_extract_links`, crawler_service.py lines 279-326) -/

/-- Whether a link survives the comprehension filter
`url.startswith(('http://', 'https://', '/'))` (lines 296/302/310/316). -/
def startsWithAllowed (s : String) : Bool :=
  strStartsWith s "http://" || strStartsWith s "https://" || strStartsWith s "/"

/-- Lines 284-288: a list-valued `links` attribute is taken as is; for a
dict-valued one, `list(result.links.keys())` is taken. -/
def linksAttrList (r : RenderResult) : List String :=
  match r.links with
  | some (.list ls) => ls
  | some (.dict ps) => ps.map Prod.fst
  | none => []

/-- Lines 291-302: when the `links` attribute produced nothing, parse
`html_content` (else `html`) for href attributes, filtered by
`startsWithAllowed`. -/
def htmlCandidates (r : RenderResult) : List String :=
  if r.html_content.elim false truthy then
    (hrefFindAll (r.html_content.getD "")).filter startsWithAllowed
  else if r.html.elim false truthy then
    (hrefFindAll (r.html.getD "")).filter startsWithAllowed
  else []

/-- Lines 304-316: when there are still no links, parse `markdown_content`
(else `markdown`) for markdown links, filtered by `startsWithAllowed`. -/
def mdCandidates (r : RenderResult) : List String :=
  if r.markdown_content.elim false truthy then
    (mdFindAll (r.markdown_content.getD "")).filter startsWithAllowed
  else if r.markdown.elim false truthy then
    (mdFindAll (r.markdown.getD "")).filter startsWithAllowed
  else []

/-- Lines 291-316 combined: the html parse, then — only when it produced
nothing — the markdown parse. -/
def parsedCandidates (r : RenderResult) : List String :=
  if (htmlCandidates r).isEmpty then mdCandidates r else htmlCandidates r

/-- The `links` value just before the final dedup loop (line 318). -/
def rawLinks (r : RenderResult) : List String :=
  if (linksAttrList r).isEmpty then parsedCandidates r else linksAttrList r

/-- Truthiness of `link.strip()` (line 322): some non-whitespace character. -/
def stripTruthy (s : String) : Bool := s.data.any (fun c => !c.isWhitespace)

/-- Lines 319-324: keep a link when it was not seen before and is not
blank, remembering it in `seen`. -/
def dedupKeep (seen : List String) : List String → List String
  | [] => []
  | l :: ls =>
    if l ∉ seen ∧ stripTruthy l then l :: dedupKeep (l :: seen) ls
    else dedupKeep seen ls

/-- The extraction of `_extract_links` (lines 279-326). -/
def extract_links (r : RenderResult) : List String := dedupKeep [] (rawLinks r)

/-! ## Metadata extraction (`_extract_metadata`, lines 328-346) -/

/-- The extraction of `_extract_metadata`: one `if/elif` chain dispatching
on attribute presence; the heading scan runs only on `markdown_content`,
else `markdown`. -/
def extract_metadata (r : RenderResult) : List (String × String) :=
  if metaIsDict r.metadata then metaDict r.metadata
  else
    match r.title with
    | some t => [("title", t)]
    | none =>
      if r.markdown_content.elim false truthy then
        match headingTitle (r.markdown_content.getD "") with
        | some t => [("title", t)]
        | none => []
      else if r.markdown.elim false truthy then
        match headingTitle (r.markdown.getD "") with
        | some t => [("title", t)]
        | none => []
      else []

/-! ## Content extraction (`_extract_content`, lines 348-395) -/

/-- The three single content formats. -/
inductive Fmt
  | markdown
  | html
  | text
deriving DecidableEq

/-- The `content_type` request parameter (`markdown|html|text|all`). -/
inductive ContentType
  | markdown
  | html
  | text
  | all
deriving DecidableEq

/-- A returned content value: a string, or (for `content_type == "all"`)
a mapping from format name to content. -/
inductive Content
  | str (s : String)
  | map (m : List (String × String))
deriving DecidableEq

/-- The canonical CrawlResult attribute for a format (line 353/369/382). -/
def fmtAttr (r : RenderResult) : Fmt → Option String
  | .markdown => r.markdown
  | .html => r.html
  | .text => r.text

/-- The alternate `*_content` attribute for a format (line 360/375/389). -/
def fmtContentAttr (r : RenderResult) : Fmt → Option String
  | .markdown => r.markdown_content
  | .html => r.html_content
  | .text => r.text_content

/-- A present attribute value when truthy (`hasattr` plus `if val`). -/
def tryAttr : Option String → Option String
  | some v => if truthy v then some v else none
  | none => none

/-- The first present-and-truthy value of a list of attributes. -/
def firstTruthy : List (Option String) → Option String
  | [] => none
  | o :: os =>
    match o with
    | some v => if truthy v then some v else firstTruthy os
    | none => firstTruthy os

/-- Single-format extraction (lines 368-395): the requested canonical
attribute, else its `*_content` alternate, else the canonical attributes
`markdown`, `html`, `text` in order, else the alternates
`markdown_content`, `html_content`, `text_content` in order, else `""`. -/
def extract_content_single (r : RenderResult) (f : Fmt) : String :=
  match tryAttr (fmtAttr r f) with
  | some v => v
  | none =>
    match tryAttr (fmtContentAttr r f) with
    | some v => v
    | none =>
      match firstTruthy [r.markdown, r.html, r.text] with
      | some v => v
      | none =>
        match firstTruthy [r.markdown_content, r.html_content, r.text_content] with
        | some v => v
        | none => ""

/-- The `content_type == "all"` branch (lines 349-366): every truthy
canonical attribute keyed by its name, then every truthy alternate whose
key is not already populated. -/
def allContent (r : RenderResult) : List (String × String) :=
  let canon := [("markdown", r.markdown), ("html", r.html), ("text", r.text)]
  let base := canon.foldl
    (fun acc p =>
      match p.2 with
      | some v => if truthy v then acc ++ [(p.1, v)] else acc
      | none => acc) []
  let alts :=
    [("markdown", r.markdown_content), ("html", r.html_content), ("text", r.text_content)]
  alts.foldl
    (fun acc p =>
      match p.2 with
      | some v =>
        if truthy v && !(acc.any (fun q => q.1 == p.1)) then acc ++ [(p.1, v)] else acc
      | none => acc) base

/-- The extraction of `_extract_content` (lines 348-395); for `all` an
empty mapping is returned as the empty string (line 366). -/
def extract_content (r : RenderResult) (ct : ContentType) : Content :=
  match ct with
  | .all =>
    let m := allContent r
    if m.isEmpty then .str "" else .map m
  | .markdown => .str (extract_content_single r Fmt.markdown)
  | .html => .str (extract_content_single r Fmt.html)
  | .text => .str (extract_content_single r Fmt.text)

/-! ## Rounding

The service reports times through Python's `round(x, 2)`.  Times are
modelled as exact rationals and `round(x, 2)` as rounding to two decimal
places with ties going to an even hundredth (Python's round-half-even). -/

/-- Round-half-even to an integer. -/
def roundHalfEven (x : ℚ) : ℤ :=
  let f : ℤ := ⌊x⌋
  let r : ℚ := x - f
  if r < 1 / 2 then f
  else if 1 / 2 < r then f + 1
  else if f % 2 = 0 then f else f + 1

/-- Python `round(x, 2)` on a rational. -/
def round2 (x : ℚ) : ℚ := (roundHalfEven (100 * x) : ℚ) / 100

/-! ## Batch crawl (`crawl_urls`, crawler_service.py lines 141-212)

The external fetch `self.crawler.arun(url, config)` is modelled as a
function from the loop index to `Except String RenderResult`: `.error e`
models the fetch raising an exception whose `str` is `e`.  Wall-clock
elapsed times are inputs of the model: `perUrlTime i` is the elapsed time
of iteration `i` and `totalTime` the elapsed time of the whole call. -/

/-- One entry of the `results` list (lines 174-195).  The success branch
never writes an `error` key, so `error` is an `Option`. -/
structure UrlResult where
  url : String
  metadata : List (String × String)
  content : Content
  success : Bool
  execution_time_seconds : ℚ
  error : Option String
deriving DecidableEq

/-- The dictionary returned by `crawl_urls` (lines 200-207), without the
random `task_id`. -/
structure CrawlUrlsOutcome where
  results : List UrlResult
  success : Bool
  total_execution_time_seconds : ℚ
  urls_processed : Nat
  average_time_per_url : ℚ
deriving DecidableEq

/-- The body of the per-URL loop (lines 158-195): on a successful fetch
the entry copies the result's `success` attribute (default `True`) and has
no `error` key; on a raised exception the entry has `success = False`,
empty metadata and content, and an `error` key. -/
def processUrl (fetched : Except String RenderResult) (ct : ContentType)
    (url : String) (t : ℚ) : UrlResult :=
  match fetched with
  | .ok r =>
    { url := url
      metadata := extract_metadata r
      content := extract_content r ct
      success := r.success.getD true
      execution_time_seconds := round2 t
      error := none }
  | .error e =>
    { url := url
      metadata := []
      content := .str ""
      success := false
      execution_time_seconds := round2 t
      error := some e }

/-- The `for i, url in enumerate(urls)` loop (lines 158-195): one
`UrlResult` appended per URL, in input order. -/
def buildResults (fetch : Nat → Except String RenderResult)
    (perUrlTime : Nat → ℚ) (ct : ContentType) :
    Nat → List String → List UrlResult
  | _, [] => []
  | i, u :: us =>
    processUrl (fetch i) ct u (perUrlTime i) :: buildResults fetch perUrlTime ct (i + 1) us

/-- The batch crawl `crawl_urls` (lines 141-212), assuming the crawler
initialized (an initialization failure re-raises out of the function and
produces no result dictionary). -/
def crawl_urls (fetch : Nat → Except String RenderResult)
    (perUrlTime : Nat → ℚ) (totalTime : ℚ) (ct : ContentType)
    (urls : List String) : CrawlUrlsOutcome :=
  let results := buildResults fetch perUrlTime ct 0 urls
  let total := round2 totalTime
  { results := results
    success := results.all (fun r => r.success)
    total_execution_time_seconds := total
    urls_processed := urls.length
    average_time_per_url :=
      if urls.length > 0 then round2 (total / (urls.length : ℚ)) else 0 }

/-- The `results[i]` lookup, with a dummy entry out of range. -/
def getResult (o : CrawlUrlsOutcome) (i : Nat) : UrlResult :=
  o.results.getD i ⟨"", [], .str "", false, 0, none⟩

/-! ## Deep crawl (`crawl_sub_urls`, crawler_service.py lines 48-139) -/

/-- Lines 100-106: `all_urls` is a Python set filled with `result.url` of
every streamed result that has a `url` attribute.  Set iteration order is
unspecified in Python; it is modelled as insertion order, which the
order-independent properties proved below do not depend on. -/
def insertNew (acc : List String) (u : String) : List String :=
  if u ∈ acc then acc else acc ++ [u]

/-- One iteration of the URL-collection loop (lines 104-106). -/
def gatherStep (acc : List String) (r : RenderResult) : List String :=
  match r.url with
  | some u => insertNew acc u
  | none => acc

/-- The set of crawled URLs, as an insertion-ordered duplicate-free list. -/
def gatherUrls (results : List RenderResult) : List String :=
  results.foldl gatherStep []

/-- Lines 108-112: metadata is taken from the first result whose
`metadata` attribute exists (no dict check here, unlike
`_extract_metadata`), else from the first `title` attribute, and only
while the accumulated value is still falsy. -/
def pickMeta (acc : MetaAttr) (r : RenderResult) : MetaAttr :=
  if metaTruthy acc then acc
  else
    match r.metadata with
    | some m => m
    | none =>
      match r.title with
      | some t => .dict [("title", t)]
      | none => acc

/-- The dictionary returned by `crawl_sub_urls` (lines 123-134), without
the random `task_id`. -/
structure CrawlSubUrlsOutcome where
  url : String
  sub_urls : List String
  metadata : MetaAttr
  success : Bool
  execution_time_seconds : ℚ
  urls_found : Nat
  crawl_depth : Nat
  max_pages : Nat
  strategy : String
deriving DecidableEq

/-- The aggregation part of `crawl_sub_urls` (lines 99-134) over the list
of results streamed back by the library traversal. -/
def crawl_sub_urls (results : List RenderResult) (url : String)
    (depth maxPages : Nat) (strategy : String) (t : ℚ) : CrawlSubUrlsOutcome :=
  let all_urls := gatherUrls results
  let metadata := results.foldl pickMeta (.dict [])
  let sub_urls := all_urls.filter (fun u => u != url)
  { url := url
    sub_urls := sub_urls
    metadata := metadata
    success := true
    execution_time_seconds := round2 t
    urls_found := sub_urls.length
    crawl_depth := depth
    max_pages := maxPages
    strategy := strategy }

/-! ## URL filter construction (`_build_url_filter`, lines 237-277) and
strategy construction (lines 63-81) -/

/-- The built-in default exclusion patterns (lines 242-269). -/
def default_exclude_patterns : List String :=
  [".*login.*", ".*signup.*", ".*register.*", ".*sign-in.*", ".*sign-up.*",
   ".*auth.*", ".*password.*", ".*reset.*", ".*logout.*", ".*admin.*",
   ".*dashboard.*", ".*profile.*", ".*account.*", ".*checkout.*", ".*cart.*",
   ".*payment.*", ".*billing.*", ".*subscribe.*", ".*newsletter.*",
   ".*contact.*", ".*support.*", ".*help.*", ".*faq.*", ".*sitemap.*",
   ".*robots.*", ".*\\.(pdf|doc|docx|xls|xlsx|ppt|pptx|zip|rar|exe|dmg)$"]

/-- The pattern list of the `FilterChain` built by `_build_url_filter`
(lines 237-277): defaults followed by the caller's patterns. -/
def build_url_filter (exclude_patterns : Option (List String)) : List String :=
  default_exclude_patterns ++ exclude_patterns.getD []

/-- The deep-crawl strategy object handed to the external library: its
constructor arguments as passed at lines 64-81. -/
structure DeepCrawlStrategyCfg where
  kind : String
  max_depth : Nat
  max_pages : Nat
  filter_chain : Option (List String)
deriving DecidableEq

/-- Lines 63-81: the strategy is selected by name; in all three branches
the `filter_chain=url_filter` argument is commented out in the source, so
no filter chain is attached and the library default (no URL filter)
applies. -/
def mkCrawlStrategy (strategy : String) (depth maxPages : Nat) : DeepCrawlStrategyCfg :=
  if strategy == "dfs" then ⟨"dfs", depth, maxPages, none⟩
  else if strategy == "best_first" then ⟨"best_first", depth, maxPages, none⟩
  else ⟨"bfs", depth, maxPages, none⟩

/-! ## The library traversal, modelled from the spec

The traversal itself lives in the external `crawl4ai` library (an external
collaborator per the spec); it is modelled from the spec so that the
effect of the service's strategy configuration can be stated. -/

/-- Modelled from the spec: pattern matching of the external
`URLPatternFilter` — matching is case-insensitive substring/regex matching
against the full URL string, so a wildcard pattern of the form
`.*core.*` matches exactly the URLs containing `core`.  Other patterns are
treated as plain substrings. -/
def patternCore (p : String) : List Char :=
  let l1 := if ['.', '*'].isPrefixOf p.data then p.data.drop 2 else p.data
  if ['*', '.'].isPrefixOf l1.reverse then (l1.reverse.drop 2).reverse else l1

/-- Case-insensitive containment of the pattern core in the URL. -/
def patternMatches (p url : String) : Bool :=
  containsSub (lowerChars url) ((patternCore p).map Char.toLower)

/-- Modelled from the spec: `isExcluded(url, patterns)` — any match excludes. -/
def isExcluded (patterns : List String) (url : String) : Bool :=
  patterns.any (fun p => patternMatches p url)

/-- A frontier node of the modelled traversal: URL and depth. -/
structure FrontierNode where
  url : String
  depth : Nat
deriving DecidableEq

/-- Modelled from the spec: one step of the traversal engine (spec section
4.3), which lives in the external library.  Pops the next node, fetches
it, and pushes every discovered link that is not yet visited, passes the
strategy's filter chain when one is attached, and respects the depth
bound; links are marked visited at push time.  Fuel bounds the recursion;
the page budget makes `max_pages + 1` fuel sufficient. -/
def crawlStep (links : String → List String) (chain : Option (List String))
    (max_depth max_pages : Nat) :
    Nat → List FrontierNode → List String → List String → List String
  | 0, _, _, fetched => fetched.reverse
  | _ + 1, [], _, fetched => fetched.reverse
  | fuel + 1, n :: frontier, visited, fetched =>
    if fetched.length ≥ max_pages then fetched.reverse
    else
      let step := (links n.url).foldl
        (fun st l =>
          if l ∉ st.2 ∧
              (match chain with
               | some pats => !isExcluded pats l
               | none => true) = true ∧
              n.depth + 1 ≤ max_depth
          then (st.1 ++ [FrontierNode.mk l (n.depth + 1)], st.2 ++ [l])
          else st) (([] : List FrontierNode), visited)
      crawlStep links chain max_depth max_pages fuel
        (frontier ++ step.1) step.2 (n.url :: fetched)

/-- Modelled from the spec: the traversal run on a seed, returning the
stream of fetched page URLs (the seed first). -/
def runTraversal (links : String → List String) (strat : DeepCrawlStrategyCfg)
    (seed : String) : List String :=
  crawlStep links strat.filter_chain strat.max_depth strat.max_pages
    (strat.max_pages + 1) [FrontierNode.mk seed 0] [seed] []

/-- The deep crawl end to end as the service runs it: `crawl_sub_urls`
builds the URL filter (line 61), builds the strategy without attaching the
filter (lines 63-81), streams the modelled traversal, and aggregates.  The
frontier ordering policy is modelled as FIFO; the properties stated below
do not depend on the ordering. -/
def crawl_sub_urls_run (links : String → List String) (url : String)
    (depth maxPages : Nat) (strategy : String)
    (exclude_patterns : List String) (t : ℚ) : CrawlSubUrlsOutcome :=
  let url_filter := build_url_filter (some exclude_patterns)
  let strat := mkCrawlStrategy strategy depth maxPages
  let pageUrls := runTraversal links strat url
  let results := pageUrls.map (fun u => ({ url := some u } : RenderResult))
  let _ := url_filter
  crawl_sub_urls results url depth maxPages strategy t

/-! ## URL utilities (`utils.py` lines 12-24)

`urllib.parse.urljoin` is Python standard library; `normalize_url` is
parameterized by it, and nothing proved below depends on its behavior.
`urllib.parse.urlparse` is embedded for the two components `validate_url`
reads (scheme and netloc), following its documented splitting rules. -/

/-- A character allowed in a URL scheme after the first letter. -/
def schemeChar (c : Char) : Bool :=
  c.isAlpha || c.isDigit || c == '+' || c == '-' || c == '.'

/-- Splits `scheme:` off the front as `urlparse` does: a scheme exists
when a colon is present and everything before the first colon is a
non-empty letter-led run of scheme characters. -/
def splitScheme (cs : List Char) : Option (List Char) × List Char :=
  let pre := cs.takeWhile (fun c => !(c == ':'))
  if pre.length < cs.length ∧ pre ≠ [] ∧
      (pre.headD 'a').isAlpha ∧ pre.all schemeChar then
    (some pre, cs.drop (pre.length + 1))
  else (none, cs)

/-- Splits the netloc off the remainder: present only after `//`, running
up to the next `/`, `?` or `#`. -/
def splitNetloc (cs : List Char) : List Char :=
  match cs with
  | '/' :: '/' :: rest =>
    rest.takeWhile (fun c => !(c == '/' || c == '?' || c == '#'))
  | _ => []

/-- The scheme component of `urlparse` (empty string when absent). -/
def urlScheme (url : String) : String :=
  String.mk ((splitScheme url.data).1.getD [])

/-- The netloc component of `urlparse` (empty string when absent). -/
def urlNetloc (url : String) : String :=
  String.mk (splitNetloc (splitScheme url.data).2)

/-- The check of `validate_url` (utils.py lines 12-18):
`all([result.scheme, result.netloc])` on the parse. -/
def validate_url (url : String) : Bool :=
  truthy (urlScheme url) && truthy (urlNetloc url)

/-- The resolution of `normalize_url` (utils.py lines 20-24): join against
the base only when the base is truthy and the URL does not start with
`http://` or `https://`; otherwise the URL is returned unchanged.  The
stdlib `urljoin` is a parameter. -/
def normalize_url (urljoin : String → String → String) (url : String)
    (base_url : Option String) : String :=
  match base_url with
  | some b =>
    if truthy b && !(strStartsWith url "http://" || strStartsWith url "https://") then
      urljoin b url
    else url
  | none => url

/-- Whether a URL string carries a fragment marker. -/
def hasFragment (s : String) : Bool := s.data.contains '#'

/-- A stand-in join function for closed evaluations in which the joining
branch of `normalize_url` is not taken. -/
def urljoin_stub (b u : String) : String := b ++ u

/-! ## Spec-stated variants, for comparison with the code

These definitions follow the words of the specification (not the source)
and exist only to be compared with the embedded source functions. -/

/-- The heading fallback as the spec words it: scan the markdown, else the
html, content for a leading `# heading` line and use it as the title. -/
def specHeading (r : RenderResult) : List (String × String) :=
  match headingTitle ((firstTruthy
      [r.markdown, r.markdown_content, r.html, r.html_content]).getD "") with
  | some t => [("title", t)]
  | none => []

/-- The metadata extraction as the spec words it: the renderer metadata
map, else a title field, else the heading scan — where a later fallback
runs whenever the earlier ones produced nothing (an empty result does not
win). -/
def extractMetadata_spec (r : RenderResult) : List (String × String) :=
  let fromMap := metaDict r.metadata
  if !fromMap.isEmpty then fromMap
  else
    match r.title with
    | some t => if truthy t then [("title", t)] else specHeading r
    | none => specHeading r

/-- The representation of one format as the spec words it: the canonical
field, else the alternate `*_content` field, when non-empty. -/
def reprOf (r : RenderResult) (f : Fmt) : Option String :=
  match tryAttr (fmtAttr r f) with
  | some v => some v
  | none => tryAttr (fmtContentAttr r f)

/-- Single-format content extraction as the spec words it: the requested
representation when non-empty, else the first non-empty representation in
the order markdown, html, text, else the empty string. -/
def extractContent_spec (r : RenderResult) (f : Fmt) : String :=
  match reprOf r f with
  | some v => v
  | none =>
    (firstTruthy [reprOf r Fmt.markdown, reprOf r Fmt.html, reprOf r Fmt.text]).getD ""

/-- The same spec wording under the alternative reading in which a
representation is the canonical field only (no `*_content` alternates). -/
def extractContent_specCanon (r : RenderResult) (f : Fmt) : String :=
  match tryAttr (fmtAttr r f) with
  | some v => v
  | none => (firstTruthy [r.markdown, r.html, r.text]).getD ""

/-! ## Concrete inputs used by closed evaluations -/

/-- A fetch outcome whose only content field is an html field with one
anchor (the spec's own extraction-fallback example). -/
def htmlOnlyOutcome : RenderResult := { html := some "<a href=\"https://x.com/a\">" }

/-- A fetch outcome with a structured links attribute containing a link
that starts with none of `http://`, `https://`, `/`. -/
def mailtoOutcome : RenderResult := { links := some (LinksAttr.list ["mailto:a@b.c"]) }

/-- A fetch outcome with an empty renderer metadata map and a title field. -/
def emptyMetaTitleOutcome : RenderResult := { metadata := some (MetaAttr.dict []), title := some "T" }

/-- A fetch outcome with a title field only. -/
def titleOnlyOutcome : RenderResult := { title := some "T" }

/-- A fetch outcome whose only content is an html heading line. -/
def htmlHeadingOutcome : RenderResult := { html := some "# T" }

/-- A fetch outcome whose only content is a `markdown_content` field with
a heading on its own line. -/
def mdContentHeadingOutcome : RenderResult :=
  { markdown_content := some "intro\n# Hello World\nrest" }

/-- A fetch outcome whose only content is a `markdown` field starting
with a heading line. -/
def mdHeadingOutcome : RenderResult := { markdown := some "# Fallback Title" }

/-- A fetch outcome with a canonical text field and an alternate html
field. -/
def textHtmlContentOutcome : RenderResult := { text := some "T", html_content := some "HC" }

/-- A fetch outcome whose only content field is the alternate
`markdown_content`. -/
def mdContentOnlyOutcome : RenderResult := { markdown_content := some "MC" }

/-- A link oracle: the seed page links to its login page only. -/
def exampleComLinks : String → List String :=
  fun u => if u == "https://example.com" then ["https://example.com/login"] else []

/-- A fetch oracle that always succeeds with an empty render result. -/
def fetchAllOk : Nat → Except String RenderResult := fun _ => Except.ok {}

/-- A fetch oracle that raises on the second URL. -/
def fetchBoomAt1 : Nat → Except String RenderResult :=
  fun i => if i == 0 then Except.ok {} else Except.error "boom"

/-- A fetch oracle returning a result whose own success attribute is False. -/
def fetchFalseSuccess : Nat → Except String RenderResult :=
  fun _ => Except.ok { success := some false }

/-! ## Helper lemmas -/

theorem processUrl_url (e : Except String RenderResult) (ct : ContentType)
    (u : String) (t : ℚ) : (processUrl e ct u t).url = u := by
  cases e <;> rfl

theorem buildResults_length (fetch : Nat → Except String RenderResult)
    (perUrlTime : Nat → ℚ) (ct : ContentType) (urls : List String) (i : Nat) :
    (buildResults fetch perUrlTime ct i urls).length = urls.length := by
  induction urls generalizing i with
  | nil => rfl
  | cons u us ih => simp [buildResults, ih]

theorem buildResults_map_url (fetch : Nat → Except String RenderResult)
    (perUrlTime : Nat → ℚ) (ct : ContentType) (urls : List String) (i : Nat) :
    (buildResults fetch perUrlTime ct i urls).map (fun e => e.url) = urls := by
  induction urls generalizing i with
  | nil => rfl
  | cons u us ih => simp [buildResults, processUrl_url, ih]

theorem buildResults_getD (fetch : Nat → Except String RenderResult)
    (perUrlTime : Nat → ℚ) (ct : ContentType) (urls : List String) (i k : Nat)
    (h : k < urls.length) :
    (buildResults fetch perUrlTime ct i urls).getD k ⟨"", [], .str "", false, 0, none⟩ =
      processUrl (fetch (i + k)) ct (urls.getD k "") (perUrlTime (i + k)) := by
  induction urls generalizing i k with
  | nil => exact absurd h (by simp)
  | cons u us ih =>
    cases k with
    | zero => simp [buildResults]
    | succ k =>
      have hk : k < us.length := by simpa using h
      have h2 : i + 1 + k = i + (k + 1) := by omega
      simpa [buildResults, h2] using ih (i + 1) k hk

theorem crawl_urls_getResult (fetch : Nat → Except String RenderResult)
    (perUrlTime : Nat → ℚ) (totalTime : ℚ) (ct : ContentType)
    (urls : List String) (i : Nat) (h : i < urls.length) :
    getResult (crawl_urls fetch perUrlTime totalTime ct urls) i =
      processUrl (fetch i) ct (urls.getD i "") (perUrlTime i) := by
  simpa [getResult, crawl_urls] using buildResults_getD fetch perUrlTime ct urls 0 i h

theorem dedupKeep_sublist (xs : List String) (seen : List String) :
    List.Sublist (dedupKeep seen xs) xs := by
  induction xs generalizing seen with
  | nil => simp [dedupKeep]
  | cons x xs ih =>
    by_cases h : x ∉ seen ∧ stripTruthy x
    · simpa [dedupKeep, h] using List.Sublist.cons₂ x (ih (x :: seen))
    · simpa [dedupKeep, h] using List.Sublist.cons x (ih seen)

theorem dedupKeep_mem (xs : List String) (seen : List String) (l : String)
    (hm : l ∈ dedupKeep seen xs) : l ∉ seen ∧ stripTruthy l = true := by
  induction xs generalizing seen with
  | nil => simp [dedupKeep] at hm
  | cons x xs ih =>
    by_cases h : x ∉ seen ∧ stripTruthy x
    · rw [dedupKeep, if_pos h] at hm
      rcases List.mem_cons.mp hm with rfl | hm'
      · exact ⟨h.1, h.2⟩
      · have := ih (x :: seen) hm'
        exact ⟨fun hs => this.1 (List.mem_cons_of_mem _ hs), this.2⟩
    · rw [dedupKeep, if_neg h] at hm
      exact ih seen hm

theorem dedupKeep_nodup (xs : List String) (seen : List String) :
    (dedupKeep seen xs).Nodup := by
  induction xs generalizing seen with
  | nil => simp [dedupKeep]
  | cons x xs ih =>
    by_cases h : x ∉ seen ∧ stripTruthy x
    · rw [dedupKeep, if_pos h]
      exact List.nodup_cons.mpr
        ⟨fun hm => (dedupKeep_mem xs (x :: seen) x hm).1 (List.mem_cons_self x seen),
         ih (x :: seen)⟩
    · rw [dedupKeep, if_neg h]
      exact ih seen

theorem htmlCandidates_allowed (r : RenderResult) (l : String)
    (h : l ∈ htmlCandidates r) : startsWithAllowed l = true := by
  unfold htmlCandidates at h
  split at h
  · exact (List.mem_filter.mp h).2
  · split at h
    · exact (List.mem_filter.mp h).2
    · exact absurd h (List.not_mem_nil l)

theorem mdCandidates_allowed (r : RenderResult) (l : String)
    (h : l ∈ mdCandidates r) : startsWithAllowed l = true := by
  unfold mdCandidates at h
  split at h
  · exact (List.mem_filter.mp h).2
  · split at h
    · exact (List.mem_filter.mp h).2
    · exact absurd h (List.not_mem_nil l)

theorem parsedCandidates_allowed (r : RenderResult) (l : String)
    (h : l ∈ parsedCandidates r) : startsWithAllowed l = true := by
  unfold parsedCandidates at h
  split at h
  · exact mdCandidates_allowed r l h
  · exact htmlCandidates_allowed r l h

theorem insertNew_nodup (acc : List String) (u : String) (h : acc.Nodup) :
    (insertNew acc u).Nodup := by
  unfold insertNew
  split
  · exact h
  · next hn => simp [List.nodup_append, h, hn]

theorem foldl_gatherStep_nodup (results : List RenderResult) (acc : List String)
    (h : acc.Nodup) : (results.foldl gatherStep acc).Nodup := by
  induction results generalizing acc with
  | nil => exact h
  | cons r rs ih =>
    simp only [List.foldl_cons]
    cases hu : r.url with
    | none =>
      have hg : gatherStep acc r = acc := by simp [gatherStep, hu]
      rw [hg]
      exact ih acc h
    | some u =>
      have hg : gatherStep acc r = insertNew acc u := by simp [gatherStep, hu]
      rw [hg]
      exact ih _ (insertNew_nodup acc u h)

theorem gatherUrls_nodup (results : List RenderResult) : (gatherUrls results).Nodup :=
  foldl_gatherStep_nodup results [] List.nodup_nil

theorem firstTruthy_cons (o : Option String) (os : List (Option String)) :
    firstTruthy (o :: os) =
      match tryAttr o with
      | some v => some v
      | none => firstTruthy os := by
  cases o with
  | none => rfl
  | some v =>
    by_cases h : truthy v <;> simp [firstTruthy, tryAttr, h]

theorem firstTruthy_append (xs ys : List (Option String)) :
    firstTruthy (xs ++ ys) =
      match firstTruthy xs with
      | some v => some v
      | none => firstTruthy ys := by
  induction xs with
  | nil => rfl
  | cons o os ih =>
    cases o with
    | none => simpa [firstTruthy] using ih
    | some v => by_cases h : truthy v <;> simp [firstTruthy, h, ih]

/-! ## Claims -/

/-- C1: the claim reads that a URL matching a default or caller-supplied
exclusion pattern is never pushed to the frontier and never appears in the
discovered output.  The code builds the pattern filter (line 61) — with
`.*login.*` among the defaults, matching the example's login URL — but the
`filter_chain` argument is commented out in all three strategy
constructions (lines 64-81), so no exclusion is applied: with seed
`https://example.com`, an empty exclude list and a page linking to
`https://example.com/login`, the login URL is crawled and reported in
`sub_urls`, contradicting the claim and the code's own comments. -/
theorem C1_filter_not_applied :
    (mkCrawlStrategy "bfs" 2 10).filter_chain = none ∧
    (mkCrawlStrategy "dfs" 2 10).filter_chain = none ∧
    (mkCrawlStrategy "best_first" 2 10).filter_chain = none ∧
    ".*login.*" ∈ build_url_filter (some []) ∧
    patternMatches ".*login.*" "https://example.com/login" = true ∧
    "https://example.com/login" ∈
      (crawl_sub_urls_run exampleComLinks "https://example.com" 2 10 "bfs" [] 0).sub_urls := by
  exact ⟨by decide, by decide, by decide, by decide, by decide, by decide⟩

/-- C2 counterexample: `normalize_url` does not strip fragment
identifiers (the returned URL still carries one), and an input with
neither scheme nor host passes through unchanged instead of failing —
`validate_url` is a separate boolean check that merely returns false. -/
theorem C2_counterexample :
    normalize_url urljoin_stub "https://example.com/a#frag" none = "https://example.com/a#frag" ∧
    hasFragment (normalize_url urljoin_stub "https://example.com/a#frag" none) = true ∧
    normalize_url urljoin_stub "not-a-url" none = "not-a-url" ∧
    validate_url "not-a-url" = false := by
  exact ⟨by decide, by decide, by decide, by decide⟩

/-- C2 amended: `normalize_url` joins against the base exactly when a
truthy base is supplied and the URL does not start with `http://` or
`https://`; otherwise (including whenever no base is given) the URL is
returned unchanged, fragments intact, and the function never fails;
URL validity — scheme and host both non-empty — is checked only by the
separate boolean `validate_url`. -/
theorem C2_amended (join : String → String → String) (url base : String) :
    normalize_url join url none = url ∧
    ((strStartsWith url "http://" || strStartsWith url "https://") = true →
      normalize_url join url (some base) = url) ∧
    (truthy base = true →
      (strStartsWith url "http://" || strStartsWith url "https://") = false →
      normalize_url join url (some base) = join base url) ∧
    (truthy base = false → normalize_url join url (some base) = url) ∧
    (validate_url url = true ↔
      truthy (urlScheme url) = true ∧ truthy (urlNetloc url) = true) := by
  refine ⟨rfl, ?_, ?_, ?_, ?_⟩
  · intro h
    simp [normalize_url, h]
  · intro hb h
    simp [normalize_url, h, hb]
  · intro hb
    simp [normalize_url, hb]
  · simp [validate_url, Bool.and_eq_true]

/-- C2 witness: a relative URL with a truthy base is resolved through the
join function, instantiating the amended theorem at a concrete input. -/
theorem C2_amended_witness :
    truthy "https://example.com/" = true ∧
    (strStartsWith "docs/page" "http://" || strStartsWith "docs/page" "https://") = false ∧
    normalize_url urljoin_stub "docs/page" (some "https://example.com/") =
      urljoin_stub "https://example.com/" "docs/page" :=
  ⟨by decide, by decide,
   (C2_amended urljoin_stub "docs/page" "https://example.com/").2.2.1 (by decide) (by decide)⟩

/-- C3 counterexample: a structured `links` attribute is passed through
without the prefix filter, so the returned list can contain a link that
starts with none of `http://`, `https://`, `/`. -/
theorem C3_counterexample :
    extract_links mailtoOutcome = ["mailto:a@b.c"] ∧
    startsWithAllowed "mailto:a@b.c" = false := by
  exact ⟨by decide, by decide⟩

/-- C3 amended: the output of `_extract_links` is always duplicate-free,
preserves first-seen order (it is a sublist of the raw candidate list) and
drops blank links; the prefix guarantee holds for every outcome whose
structured `links` attribute yields nothing (the parsed html/markdown
paths filter by prefix), but a structured links list is passed through
unfiltered; the spec's html-anchor example does hold. -/
theorem C3_amended (r : RenderResult) :
    (extract_links r).Nodup ∧
    List.Sublist (extract_links r) (rawLinks r) ∧
    (∀ l, l ∈ extract_links r → stripTruthy l = true) ∧
    (linksAttrList r = [] → ∀ l, l ∈ extract_links r → startsWithAllowed l = true) ∧
    extract_links htmlOnlyOutcome = ["https://x.com/a"] := by
  refine ⟨dedupKeep_nodup (rawLinks r) [], dedupKeep_sublist (rawLinks r) [],
    fun l hl => (dedupKeep_mem (rawLinks r) [] l hl).2, ?_, by decide⟩
  intro hla l hl
  have hraw : l ∈ rawLinks r := (dedupKeep_sublist (rawLinks r) []).mem hl
  have : rawLinks r = parsedCandidates r := by simp [rawLinks, hla]
  exact parsedCandidates_allowed r l (this ▸ hraw)

/-- C3 witness: the amended theorem applied to the html-anchor outcome,
whose structured links attribute is empty. -/
theorem C3_amended_witness :
    linksAttrList htmlOnlyOutcome = [] ∧
    "https://x.com/a" ∈ extract_links htmlOnlyOutcome ∧
    startsWithAllowed "https://x.com/a" = true :=
  ⟨by decide, by decide,
   (C3_amended htmlOnlyOutcome).2.2.2.1 (by decide) "https://x.com/a" (by decide)⟩

/-- C4 counterexample: an outcome with an empty renderer metadata map and
a present title field — the code returns the empty map without consulting
the title, while the claim's first-non-empty-strategy-wins reading
returns the title. -/
theorem C4_counterexample :
    extract_metadata emptyMetaTitleOutcome = [] ∧
    extractMetadata_spec emptyMetaTitleOutcome = [("title", "T")] := by
  exact ⟨by decide, by decide⟩

/-- C4 amended: `_extract_metadata` dispatches on attribute presence, not
on non-emptiness of the produced mapping: a present dict metadata
attribute wins even when empty; otherwise a present title attribute wins
even when empty; otherwise the heading scan runs only on
`markdown_content`, else `markdown` — html content is never scanned. -/
theorem C4_amended (r : RenderResult) :
    (∀ m, r.metadata = some (MetaAttr.dict m) → extract_metadata r = m) ∧
    (metaIsDict r.metadata = false → ∀ t, r.title = some t →
      extract_metadata r = [("title", t)]) ∧
    (metaIsDict r.metadata = false → r.title = none → r.markdown_content = none →
      r.markdown = none → extract_metadata r = []) ∧
    (metaIsDict r.metadata = false → r.title = none → ∀ mc, r.markdown_content = some mc →
      truthy mc = true →
      extract_metadata r = (headingTitle mc).elim [] (fun t => [("title", t)])) ∧
    (metaIsDict r.metadata = false → r.title = none →
      r.markdown_content.elim false truthy = false → ∀ m, r.markdown = some m →
      truthy m = true →
      extract_metadata r = (headingTitle m).elim [] (fun t => [("title", t)])) := by
  refine ⟨?_, ?_, ?_, ?_, ?_⟩
  · intro m h
    simp [extract_metadata, h, metaIsDict, metaDict]
  · intro hd t ht
    simp [extract_metadata, hd, ht]
  · intro hd ht h1 h2
    simp [extract_metadata, hd, ht, h1, h2]
  · intro hd ht mc hmc htr
    simp [extract_metadata, hd, ht, hmc, htr]
    cases headingTitle mc <;> simp
  · intro hd ht hc m hm htr
    simp [extract_metadata, hd, ht, hc, hm, htr]
    cases headingTitle m <;> simp

/-- C4 witness: the amended theorem applied to a title-only outcome, to an
outcome whose only content is an html heading (which yields nothing), and
to outcomes whose `markdown_content` (inner heading line) and `markdown`
(leading heading line) fields are scanned and yield the heading text. -/
theorem C4_amended_witness :
    extract_metadata titleOnlyOutcome = [("title", "T")] ∧
    extract_metadata htmlHeadingOutcome = [] ∧
    headingTitle "intro\n# Hello World\nrest" = some "Hello World" ∧
    extract_metadata mdContentHeadingOutcome = [("title", "Hello World")] ∧
    headingTitle "# Fallback Title" = some "Fallback Title" ∧
    extract_metadata mdHeadingOutcome = [("title", "Fallback Title")] :=
  ⟨(C4_amended titleOnlyOutcome).2.1 (by decide) "T" rfl,
   (C4_amended htmlHeadingOutcome).2.2.1 (by decide) rfl rfl rfl,
   by decide,
   (C4_amended mdContentHeadingOutcome).2.2.2.1 (by decide) rfl
     "intro\n# Hello World\nrest" rfl (by decide),
   by decide,
   (C4_amended mdHeadingOutcome).2.2.2.2 (by decide) rfl (by decide)
     "# Fallback Title" rfl (by decide)⟩

/-- C5 counterexample, covering both readings of "representation": with
markdown requested, text `T` and alternate html `HC` present, the code
returns `T` while the claim's markdown-html-text representation order
returns `HC`; and with html requested on an outcome whose only content is
the alternate `markdown_content`, the code returns it while the
canonical-fields-only reading of the claim returns the empty string. -/
theorem C5_counterexample :
    extract_content textHtmlContentOutcome ContentType.markdown = Content.str "T" ∧
    extractContent_spec textHtmlContentOutcome Fmt.markdown = "HC" ∧
    Content.str "T" ≠ Content.str "HC" ∧
    extract_content mdContentOnlyOutcome ContentType.html = Content.str "MC" ∧
    extractContent_specCanon mdContentOnlyOutcome Fmt.html = "" ∧
    Content.str "MC" ≠ Content.str "" := by
  exact ⟨by decide, by decide, by decide, by decide, by decide, by decide⟩

/-- C5 amended: single-format extraction returns the first non-empty value
among the requested canonical attribute, its `*_content` alternate, the
canonical attributes markdown, html, text in order, and the alternates
markdown_content, html_content, text_content in order — and the empty
string when all are absent or empty. -/
theorem C5_amended (r : RenderResult) (f : Fmt) :
    extract_content_single r f =
      (firstTruthy [fmtAttr r f, fmtContentAttr r f, r.markdown, r.html, r.text,
        r.markdown_content, r.html_content, r.text_content]).getD "" := by
  have hsplit :
      ([fmtAttr r f, fmtContentAttr r f, r.markdown, r.html, r.text,
        r.markdown_content, r.html_content, r.text_content] : List (Option String)) =
      fmtAttr r f :: fmtContentAttr r f ::
        ([r.markdown, r.html, r.text] ++ [r.markdown_content, r.html_content, r.text_content]) := rfl
  rw [hsplit, firstTruthy_cons, firstTruthy_cons, firstTruthy_append]
  unfold extract_content_single
  cases h1 : tryAttr (fmtAttr r f) with
  | some v => rfl
  | none =>
    cases h2 : tryAttr (fmtContentAttr r f) with
    | some v => rfl
    | none =>
      cases h3 : firstTruthy [r.markdown, r.html, r.text] with
      | some v => rfl
      | none =>
        cases h4 : firstTruthy [r.markdown_content, r.html_content, r.text_content] with
        | some v => rfl
        | none => rfl

/-- C6: the batch result has one entry per input URL, in input order, and
`urls_processed` equals the number of input URLs. -/
theorem C6_batch_shape (fetch : Nat → Except String RenderResult)
    (perUrlTime : Nat → ℚ) (totalTime : ℚ) (ct : ContentType) (urls : List String) :
    (crawl_urls fetch perUrlTime totalTime ct urls).results.map (fun e => e.url) = urls ∧
    (crawl_urls fetch perUrlTime totalTime ct urls).urls_processed = urls.length :=
  ⟨buildResults_map_url fetch perUrlTime ct urls 0, rfl⟩

/-- C7: a raising fetch yields an entry with success false, an error
description and empty content/metadata; the batch never aborts (the
results list always has one entry per input); overall success is the
conjunction of the per-entry flags. -/
theorem C7_batch_errors (fetch : Nat → Except String RenderResult)
    (perUrlTime : Nat → ℚ) (totalTime : ℚ) (ct : ContentType) (urls : List String) :
    (crawl_urls fetch perUrlTime totalTime ct urls).results.length = urls.length ∧
    (crawl_urls fetch perUrlTime totalTime ct urls).success =
      (crawl_urls fetch perUrlTime totalTime ct urls).results.all (fun e => e.success) ∧
    (∀ i e, i < urls.length → fetch i = Except.error e →
      (getResult (crawl_urls fetch perUrlTime totalTime ct urls) i).success = false ∧
      (getResult (crawl_urls fetch perUrlTime totalTime ct urls) i).error = some e ∧
      (getResult (crawl_urls fetch perUrlTime totalTime ct urls) i).content = Content.str "" ∧
      (getResult (crawl_urls fetch perUrlTime totalTime ct urls) i).metadata = []) := by
  refine ⟨buildResults_length fetch perUrlTime ct urls 0, rfl, ?_⟩
  intro i e hi hf
  rw [crawl_urls_getResult fetch perUrlTime totalTime ct urls i hi, hf]
  exact ⟨rfl, rfl, rfl, rfl⟩

/-- C7 witness: a batch of two URLs whose second fetch raises `boom`. -/
theorem C7_batch_errors_witness :
    1 < (["a", "b"] : List String).length ∧
    fetchBoomAt1 1 = Except.error "boom" ∧
    (getResult (crawl_urls fetchBoomAt1 (fun _ => 0) 0 ContentType.markdown ["a", "b"]) 1).success
      = false ∧
    (getResult (crawl_urls fetchBoomAt1 (fun _ => 0) 0 ContentType.markdown ["a", "b"]) 1).error
      = some "boom" :=
  ⟨by decide, rfl,
   ((C7_batch_errors fetchBoomAt1 (fun _ => 0) 0 ContentType.markdown ["a", "b"]).2.2
      1 "boom" (by decide) rfl).1,
   ((C7_batch_errors fetchBoomAt1 (fun _ => 0) 0 ContentType.markdown ["a", "b"]).2.2
      1 "boom" (by decide) rfl).2.1⟩

/-- C8 counterexample: with three URLs and a total elapsed time of 0.01
seconds the reported average is `round(0.01 / 3, 2) = 0`, not the exact
quotient `0.01 / 3`, so the claimed equality with the exact division
fails. -/
theorem C8_counterexample :
    (crawl_urls fetchAllOk (fun _ => 0) (1 / 100) ContentType.markdown
      ["a", "b", "c"]).urls_processed = 3 ∧
    (crawl_urls fetchAllOk (fun _ => 0) (1 / 100) ContentType.markdown
      ["a", "b", "c"]).total_execution_time_seconds = 1 / 100 ∧
    (crawl_urls fetchAllOk (fun _ => 0) (1 / 100) ContentType.markdown
      ["a", "b", "c"]).average_time_per_url = 0 ∧
    ((1 : ℚ) / 100) / 3 ≠ 0 := by
  refine ⟨rfl, ?_, ?_, by norm_num⟩
  · show round2 (1 / 100) = 1 / 100
    norm_num [round2, roundHalfEven]
  · show (if (3 : Nat) > 0 then round2 (round2 (1 / 100) / ((3 : Nat) : ℚ)) else 0) = 0
    norm_num [round2, roundHalfEven]

/-- C8 amended: `average_time_per_url` equals the total execution time
divided by `urls_processed` and rounded to two decimal places when
`urls_processed > 0`, and equals 0 when `urls_processed` is 0. -/
theorem C8_average (fetch : Nat → Except String RenderResult)
    (perUrlTime : Nat → ℚ) (totalTime : ℚ) (ct : ContentType) (urls : List String) :
    (0 < (crawl_urls fetch perUrlTime totalTime ct urls).urls_processed →
      (crawl_urls fetch perUrlTime totalTime ct urls).average_time_per_url =
        round2 ((crawl_urls fetch perUrlTime totalTime ct urls).total_execution_time_seconds /
          (((crawl_urls fetch perUrlTime totalTime ct urls).urls_processed : ℚ)))) ∧
    ((crawl_urls fetch perUrlTime totalTime ct urls).urls_processed = 0 →
      (crawl_urls fetch perUrlTime totalTime ct urls).average_time_per_url = 0) := by
  constructor
  · intro h
    have h' : 0 < urls.length := h
    simp [crawl_urls, h']
  · intro h
    have h' : urls.length = 0 := h
    simp [crawl_urls, h']

/-- C8 witness: the amended theorem applied to a three-URL batch. -/
theorem C8_average_witness :
    0 < (crawl_urls fetchAllOk (fun _ => 0) (1 / 100) ContentType.markdown
      ["a", "b", "c"]).urls_processed ∧
    (crawl_urls fetchAllOk (fun _ => 0) (1 / 100) ContentType.markdown
      ["a", "b", "c"]).average_time_per_url =
      round2 ((crawl_urls fetchAllOk (fun _ => 0) (1 / 100) ContentType.markdown
        ["a", "b", "c"]).total_execution_time_seconds /
        (((crawl_urls fetchAllOk (fun _ => 0) (1 / 100) ContentType.markdown
          ["a", "b", "c"]).urls_processed : ℚ))) :=
  ⟨by decide,
   (C8_average fetchAllOk (fun _ => 0) (1 / 100) ContentType.markdown ["a", "b", "c"]).1
     (by decide)⟩

/-- C9: the discovered sub-URL list contains no URL twice, never contains
the seed, and `urls_found` equals its length. -/
theorem C9_dedup (results : List RenderResult) (url : String)
    (depth maxPages : Nat) (strategy : String) (t : ℚ) :
    (crawl_sub_urls results url depth maxPages strategy t).sub_urls.Nodup ∧
    url ∉ (crawl_sub_urls results url depth maxPages strategy t).sub_urls ∧
    (crawl_sub_urls results url depth maxPages strategy t).urls_found =
      (crawl_sub_urls results url depth maxPages strategy t).sub_urls.length := by
  refine ⟨(gatherUrls_nodup results).filter _, ?_, rfl⟩
  intro h
  have := (List.mem_filter.mp h).2
  simp at this

/-- C10: a per-URL entry carries an `error` key exactly when the fetch
raised; on a non-raising fetch the entry's success flag is copied from the
render result's own success attribute (default true) with no `error` key —
so success can be false with no error present. -/
theorem C10_error_iff (fetch : Nat → Except String RenderResult)
    (perUrlTime : Nat → ℚ) (totalTime : ℚ) (ct : ContentType)
    (urls : List String) (i : Nat) (hi : i < urls.length) :
    ((getResult (crawl_urls fetch perUrlTime totalTime ct urls) i).error.isSome = true ↔
      ∃ e, fetch i = Except.error e) ∧
    (∀ r, fetch i = Except.ok r →
      (getResult (crawl_urls fetch perUrlTime totalTime ct urls) i).success =
        r.success.getD true ∧
      (getResult (crawl_urls fetch perUrlTime totalTime ct urls) i).error = none) := by
  rw [crawl_urls_getResult fetch perUrlTime totalTime ct urls i hi]
  constructor
  · cases hf : fetch i with
    | ok r =>
      simp [processUrl]
    | error e =>
      simp [processUrl]
  · intro r hr
    rw [hr]
    exact ⟨rfl, rfl⟩

/-- C10 witness: a fetch that succeeds with a render result whose own
success attribute is False yields an entry with success false and no
error key. -/
theorem C10_error_iff_witness :
    0 < (["a"] : List String).length ∧
    (getResult (crawl_urls fetchFalseSuccess (fun _ => 0) 0 ContentType.markdown ["a"]) 0).success
      = false ∧
    (getResult (crawl_urls fetchFalseSuccess (fun _ => 0) 0 ContentType.markdown ["a"]) 0).error
      = none :=
  ⟨by decide,
   ((C10_error_iff fetchFalseSuccess (fun _ => 0) 0 ContentType.markdown ["a"] 0
      (by decide)).2 { success := some false } rfl).1,
   ((C10_error_iff fetchFalseSuccess (fun _ => 0) 0 ContentType.markdown ["a"] 0
      (by decide)).2 { success := some false } rfl).2⟩
